import Mathlib

/-!
Verification of the differential-testing oracle in test/int_test.py:
the synthetic data-point generator (DataPoints), the query model (Query)
and the structural result comparator (Test.verify_json).

Modelling conventions:
- Python floats are modelled as exact rationals (ℚ); Python ints as ℤ.
- JSON-like response trees are the mutual inductive J / JList / JObj below
  (list / string-keyed dict / float / int / str), mirroring the dynamic
  types verify_json dispatches on; JList and JObj are explicit list types
  so that all functions stay structurally recursive and computable.
- The global pseudo-random stream (module random, seeded once per run) is
  modelled as an explicit stream g : ℕ → ℕ of raw draws plus a cursor
  index; random.randint(a, b) maps a raw draw into [a, b], and
  random.uniform(0, 100) maps a raw draw into [0, 100].
- verify_json recurses through both operands, so it is defined through a
  fuel parameter bounded by the tree sizes; fuel-congruence lemmas below
  recover the exact recursive equations of the source.
-/

namespace TickTock

/-! JSON-like response trees (operand type of Test.verify_json). -/

mutual
inductive J : Type where
  | arr : JList → J
  | obj : JObj → J
  | flt : ℚ → J
  | int : ℤ → J
  | str : String → J
inductive JList : Type where
  | nil : JList
  | cons : J → JList → JList
inductive JObj : Type where
  | nil : JObj
  | cons : String → J → JObj → JObj
end

/-- Embed a Lean list of trees as a JList. -/
def JList.ofList : List J → JList
  | [] => JList.nil
  | e :: rest => JList.cons e (JList.ofList rest)

/-- Underlying Lean list of a JList. -/
def JList.toList : JList → List J
  | JList.nil => []
  | JList.cons e rest => e :: JList.toList rest

/-- Embed a Lean association list as a JObj. -/
def JObj.ofList : List (String × J) → JObj
  | [] => JObj.nil
  | kv :: rest => JObj.cons kv.1 kv.2 (JObj.ofList rest)

/-- Underlying Lean association list of a JObj. -/
def JObj.toList : JObj → List (String × J)
  | JObj.nil => []
  | JObj.cons k v rest => (k, v) :: JObj.toList rest

/-- Python len() of a list. -/
def jLen : JList → ℕ
  | JList.nil => 0
  | JList.cons _ rest => 1 + jLen rest

/-- Python len() of a dict (number of keys). -/
def oLen : JObj → ℕ
  | JObj.nil => 0
  | JObj.cons _ _ rest => 1 + oLen rest

/-- Python for-loop with early False exit over a list: all elements
satisfy p. -/
def jAll (p : J → Bool) : JList → Bool
  | JList.nil => true
  | JList.cons e rest => p e && jAll p rest

/-- Python inner matching loop with early break: some element
satisfies p. -/
def jAny (p : J → Bool) : JList → Bool
  | JList.nil => false
  | JList.cons e rest => p e || jAny p rest

/-- Python for-loop over dict items with early False exit. -/
def oAll (p : String → J → Bool) : JObj → Bool
  | JObj.nil => true
  | JObj.cons k v rest => p k v && oAll p rest

/-- Python dict truthiness test: emptiness of a dict. -/
def oIsEmpty : JObj → Bool
  | JObj.nil => true
  | JObj.cons _ _ _ => false

/-- Dict lookup: Python d.has_key(k) / d[k] on a string-keyed dict
(first binding wins; Python dicts have unique keys). -/
def lookupJ (k : String) : JObj → Option J
  | JObj.nil => none
  | JObj.cons k2 v rest => if k2 = k then some v else lookupJ k rest

mutual
/-- Size of a tree, dominating the recursion depth of verify_json. -/
def szJ : J → ℕ
  | J.arr es => 1 + szL es
  | J.obj kvs => 1 + szO kvs
  | J.flt _ => 1
  | J.int _ => 1
  | J.str _ => 1
/-- Size of a list of trees. -/
def szL : JList → ℕ
  | JList.nil => 0
  | JList.cons e rest => 1 + szJ e + szL rest
/-- Size of a dict of trees. -/
def szO : JObj → ℕ
  | JObj.nil => 0
  | JObj.cons _ v rest => 1 + szJ v + szO rest
end

/-- Absolute float tolerance 0.00000000012 used at int_test.py:558,
taken as the exact rational the source literal denotes. -/
def eps : ℚ := 12 / 100000000000

/-- Fuel-indexed translation of Test.verify_json (int_test.py:473-584).
The fuel only bounds recursion depth; verify_json below instantiates it
with a sufficient bound, and the congruence lemmas show fuel-independence.
Branches follow the source line by line:
- expected list, actual list: if actual is empty, succeed when expected is
  empty, or when expected is exactly [d] for a dict d whose "dps" entry is
  an empty dict (empty-series normalization, lines 479-497); otherwise
  lengths must agree and both unordered-multiset loops must pass
  (lines 498-524; the second loop checks verify_json(expected[j], actual[i]),
  keeping expected-side elements as the left operand).
- two dicts: sizes must agree; every key of each side must occur in the
  other with a recursively matching value (lines 526-552; the second loop
  calls verify_json(v, expected[k]) with the actual-side value on the left).
- two floats: |expected - actual| ≤ 0.00000000012 (lines 553-561).
- two ints / two strings: equality (lines 562-579).
- any type mismatch: failure (the isinstance guards of each branch). -/
def verifyF : ℕ → J → J → Bool
  | 0, _, _ => false
  | Nat.succ n, J.arr es, J.arr as =>
    match as with
    | JList.nil =>
      match es with
      | JList.nil => true
      | JList.cons (J.obj d) JList.nil =>
        match lookupJ "dps" d with
        | some (J.obj l) => oIsEmpty l
        | _ => false
      | _ => false
    | JList.cons _ _ =>
      if jLen es = jLen as then
        jAll (fun e => jAny (fun a => verifyF n e a) as) es &&
        jAll (fun a => jAny (fun e => verifyF n e a) es) as
      else false
  | Nat.succ n, J.obj eo, J.obj ao =>
    if oLen eo = oLen ao then
      oAll (fun k v =>
        match lookupJ k ao with
        | some w => verifyF n v w
        | none => false) eo &&
      oAll (fun k v =>
        match lookupJ k eo with
        | some w => verifyF n v w
        | none => false) ao
    else false
  | Nat.succ _, J.flt e, J.flt a => decide (|e - a| ≤ eps)
  | Nat.succ _, J.int e, J.int a => decide (e = a)
  | Nat.succ _, J.str e, J.str a => decide (e = a)
  | Nat.succ _, J.arr _, _ => false
  | Nat.succ _, J.obj _, _ => false
  | Nat.succ _, J.flt _, _ => false
  | Nat.succ _, J.int _, _ => false
  | Nat.succ _, J.str _, _ => false

/-- Test.verify_json: the fuel szJ e + szJ a dominates the recursion
depth, because every recursive call strictly shrinks both operands. -/
def verify_json (e a : J) : Bool := verifyF (szJ e + szJ a) e a

/-- True when a dict does not bind "dps" to an empty dict, i.e. it is not
the "empty series" shape that triggers the asymmetric normalization branch
of verify_json (int_test.py:479-497). -/
def dpsNotEmptyObj (kvs : JObj) : Bool :=
  match lookupJ "dps" kvs with
  | some (J.obj JObj.nil) => false
  | _ => true

mutual
/-- No subtree of the given tree is a dict binding "dps" to an empty
dict; on such trees the empty-series normalization branch of verify_json
never fires, which is exactly the side condition under which the
comparator is symmetric. -/
def noEmptyDps : J → Bool
  | J.arr es => noEmptyDpsL es
  | J.obj kvs => dpsNotEmptyObj kvs && noEmptyDpsO kvs
  | J.flt _ => true
  | J.int _ => true
  | J.str _ => true
/-- List version of noEmptyDps. -/
def noEmptyDpsL : JList → Bool
  | JList.nil => true
  | JList.cons e rest => noEmptyDps e && noEmptyDpsL rest
/-- Dict version of noEmptyDps. -/
def noEmptyDpsO : JObj → Bool
  | JObj.nil => true
  | JObj.cons _ v rest => noEmptyDps v && noEmptyDpsO rest
end

/-! Synthetic data generator (DataPoint / DataPoints, int_test.py:73-177). -/

/-- DataPoint (int_test.py:73-115): one (metric, timestamp, value,
tag-set) sample. Timestamps are millisecond integers, values floats,
tags a string-keyed dict modelled as an association list in insertion
order. -/
structure DataPoint where
  metric : String
  timestamp : ℤ
  value : ℚ
  tags : List (String × String)
deriving DecidableEq

/-- DataPointSet state (int_test.py:118-177): the _dps list plus the
tracked _start/_end bounds. -/
structure DataPointSet where
  dps : List DataPoint
  start : ℤ
  end_ : ℤ
deriving DecidableEq

/-- Model of random.randint(lo, hi): maps a raw draw n from the stream
into [lo, hi] (total; for lo ≤ hi the result always lies in [lo, hi] and
every value of [lo, hi] is reached as n varies). -/
def randint (lo hi : ℤ) (n : ℕ) : ℤ := lo + ((n % (hi - lo + 1).toNat : ℕ) : ℤ)

/-- Model of random.uniform(0, 100): maps a raw draw into [0, 100]. -/
def uniform0to100 (n : ℕ) : ℚ := ((n % 101 : ℕ) : ℚ)

/-- Inner tag loop of DataPoints.__init__ (int_test.py:141-146): builds
tags tag1..tagm for metric m; when interval_ms < 200 the values are
pinned to val<t> deterministically (no draw consumed), otherwise each
value is val<randint(1, tag_cardinality)> (one draw per tag).
Arguments: remaining count, current tag number t, stream cursor.
Returns the tag list and the advanced stream cursor. -/
def genTagsAux (interval_ms tag_cardinality : ℤ) (g : ℕ → ℕ) :
    ℕ → ℕ → ℕ → List (String × String) × ℕ
  | 0, _, ix => ([], ix)
  | Nat.succ k, t, ix =>
    if interval_ms < 200 then
      let rest := genTagsAux interval_ms tag_cardinality g k (t + 1) ix
      (("tag" ++ toString t, "val" ++ toString t) :: rest.1, rest.2)
    else
      let v := randint 1 tag_cardinality (g ix)
      let rest := genTagsAux interval_ms tag_cardinality g k (t + 1) (ix + 1)
      (("tag" ++ toString t, "val" ++ toString v) :: rest.1, rest.2)

/-- Metric loop of DataPoints.__init__ (int_test.py:140-149): for
m = 1..metric_cardinality emit one point named <pfx>_metric_<m> at the
current cursor with uniform(0,100) value and the generated tags, then
advance the cursor by randint(0, 1000). Arguments: remaining count,
current metric number m, timestamp cursor, stream cursor. Returns the
emitted points, the final timestamp cursor and the stream cursor. -/
def genMetricsAux (pfx : String) (interval_ms tag_cardinality : ℤ) (g : ℕ → ℕ) :
    ℕ → ℕ → ℤ → ℕ → List DataPoint × ℤ × ℕ
  | 0, _, tstamp, ix => ([], tstamp, ix)
  | Nat.succ k, m, tstamp, ix =>
    let tr := genTagsAux interval_ms tag_cardinality g m 1 ix
    let value := uniform0to100 (g tr.2)
    let dp : DataPoint := ⟨pfx ++ "_metric_" ++ toString m, tstamp, value, tr.1⟩
    let tstamp2 := tstamp + randint 0 1000 (g (tr.2 + 1))
    let rest := genMetricsAux pfx interval_ms tag_cardinality g k (m + 1) tstamp2 (tr.2 + 2)
    (dp :: rest.1, rest.2)

/-- Outer time-step loop of DataPoints.__init__ (int_test.py:135-149):
at each of the metric_count steps advance the cursor by
randint(-interval_ms, interval_ms) when out_of_order, else by
randint(1, interval_ms), then run the metric loop. Arguments: remaining
steps, timestamp cursor, stream cursor. Returns all emitted points, the
final timestamp cursor and the stream cursor. -/
def genStepsAux (pfx : String) (interval_ms tag_cardinality : ℤ)
    (metric_cardinality : ℕ) (out_of_order : Bool) (g : ℕ → ℕ) :
    ℕ → ℤ → ℕ → List DataPoint × ℤ × ℕ
  | 0, tstamp, ix => ([], tstamp, ix)
  | Nat.succ k, tstamp, ix =>
    let off := if out_of_order then randint (-interval_ms) interval_ms (g ix)
               else randint 1 interval_ms (g ix)
    let tstamp1 := tstamp + off
    let inner := genMetricsAux pfx interval_ms tag_cardinality g
        metric_cardinality 1 tstamp1 (ix + 1)
    let rest := genStepsAux pfx interval_ms tag_cardinality metric_cardinality
        out_of_order g k inner.2.1 inner.2.2
    (inner.1 ++ rest.1, rest.2)

/-- DataPoints.__init__ (int_test.py:120-151): _start is the given
start and _end is initialized to 0; when metric_count == 0 the
constructor returns immediately (keeping _end = 0), otherwise it runs
the generation loops from cursor start and sets _end to the final
cursor value + 1. -/
def DataPoints (pfx : String) (start interval_ms : ℤ)
    (metric_count metric_cardinality : ℕ) (tag_cardinality : ℤ)
    (out_of_order : Bool) (g : ℕ → ℕ) : DataPointSet :=
  if metric_count = 0 then ⟨[], start, 0⟩
  else
    let r := genStepsAux pfx interval_ms tag_cardinality metric_cardinality
        out_of_order g metric_count start 0
    ⟨r.1, start, r.2.1 + 1⟩

/-- Value-perturbation loop of DataPoints.update_values
(int_test.py:163-165): each point's value is increased by
randint(1, 10), consuming one draw per point in list order. -/
def update_values_aux (g : ℕ → ℕ) : List DataPoint → ℕ → List DataPoint × ℕ
  | [], ix => ([], ix)
  | dp :: rest, ix =>
    let dp2 : DataPoint := { dp with value := dp.value + (randint 1 10 (g ix) : ℚ) }
    let r := update_values_aux g rest (ix + 1)
    (dp2 :: r.1, r.2)

/-- DataPoints.update_values (int_test.py:163-165), threading the
pseudo-random stream cursor explicitly. -/
def DataPointSet.update_values (s : DataPointSet) (g : ℕ → ℕ) (ix : ℕ) :
    DataPointSet × ℕ :=
  let r := update_values_aux g s.dps ix
  ({ s with dps := r.1 }, r.2)

/-! Query model (int_test.py:180-240). -/

/-- Python truthiness of an optional string: None and "" are falsy. -/
def strTruthy : Option String → Bool
  | none => false
  | some s => decide (s ≠ "")

/-- Query record after __init__ normalization (int_test.py:182-196). -/
structure Query where
  metric : String
  start : ℤ
  end_ : ℤ
  tags : List (String × String)
  aggregator : String
  downsampler : Option String
  rate_options : Option (List (String × J))

/-- Query.__init__ (int_test.py:182-196): _end defaults to "now" when
the given end is falsy (None or 0), and _aggregator is normalized to
"none" when the given aggregator is falsy (None or ""), because the
reference backend requires an explicit aggregator. -/
def Query.init (metric : String) (start : ℤ) (endOpt : Option ℤ)
    (tags : List (String × String)) (aggregator : Option String)
    (downsampler : Option String) (rate_options : Option (List (String × J)))
    (now : ℤ) : Query :=
  { metric := metric
    start := start
    end_ := match endOpt with
            | none => now
            | some t => if t = 0 then now else t
    tags := tags
    aggregator := match aggregator with
                  | none => "none"
                  | some s => if s = "" then "none" else s
    downsampler := downsampler
    rate_options := rate_options }

/-- Python association-list lookup used to inspect the rendered query
dicts (string keys, first binding wins). -/
def lookupKV (k : String) : List (String × J) → Option J
  | [] => none
  | kv :: rest => if kv.1 = k then some kv.2 else lookupKV k rest

/-- Body of Query.to_json building the single query spec dict q
(int_test.py:206-219): metric always; tags when truthy (non-empty);
aggregator when truthy and different from "raw"; downsample when truthy;
rate/rateOptions when rate_options is truthy (non-empty dict). Keys are
listed in assignment order. -/
def Query.qspec (q : Query) : List (String × J) :=
  [("metric", J.str q.metric)]
  ++ (if q.tags.isEmpty then []
      else [("tags", J.obj (JObj.ofList (q.tags.map fun kv => (kv.1, J.str kv.2))))])
  ++ (if q.aggregator ≠ "" ∧ q.aggregator ≠ "raw"
      then [("aggregator", J.str q.aggregator)] else [])
  ++ (if strTruthy q.downsampler
      then [("downsample", J.str (q.downsampler.getD ""))] else [])
  ++ (match q.rate_options with
      | some ro => if ro.isEmpty then []
                   else [("rate", J.str "true"), ("rateOptions", J.obj (JObj.ofList ro))]
      | none => [])

/-- Query.to_json envelope (int_test.py:206-226): start, end, the two
capability flags forced to the string "true", and the single-element
queries array. -/
def Query.to_json (q : Query) : J :=
  J.obj (JObj.ofList
    [("start", J.int q.start), ("end", J.int q.end_),
     ("msResolution", J.str "true"), ("globalAnnotations", J.str "true"),
     ("queries", J.arr (JList.ofList [J.obj (JObj.ofList q.qspec)]))])

/-- Replace every occurrence of the character c in a character list by
the replacement list r; models Python str.replace for one-character
patterns (the only use in to_params). -/
def replaceCharList (c : Char) (r : List Char) : List Char → List Char
  | [] => []
  | ch :: rest =>
    if ch = c then r ++ replaceCharList c r rest
    else ch :: replaceCharList c r rest

/-- Python s.replace(c, r) for a one-character pattern c. -/
def pyreplace (s : String) (c : Char) (r : String) : String :=
  String.mk (replaceCharList c r.data s.data)

/-- Lowercase hexadecimal digit, as used by json.dumps \uXXXX escapes. -/
def hexDigit (n : ℕ) : Char :=
  if n < 10 then Char.ofNat (48 + n) else Char.ofNat (87 + n)

/-- A \uXXXX escape sequence for the code unit n (0 ≤ n < 0x10000). -/
def uEscape (n : ℕ) : List Char :=
  ['\\', 'u', hexDigit (n / 4096 % 16), hexDigit (n / 256 % 16),
   hexDigit (n / 16 % 16), hexDigit (n % 16)]

/-- JSON escaping of one character, following Python json.dumps with its
default ensure_ascii=True: backslash and double quote get two-character
escapes, the common control characters get their short escapes, the
remaining characters outside the printable ASCII range 0x20-0x7e are
rendered as \uXXXX (as a surrogate pair beyond 0xffff); printable ASCII
passes through unchanged. -/
def jsonEscapeChar (c : Char) : List Char :=
  if c = '\x22' then ['\\', '\x22']
  else if c = '\\' then ['\\', '\\']
  else if c = '\x08' then ['\\', 'b']
  else if c = '\x0c' then ['\\', 'f']
  else if c = '\n' then ['\\', 'n']
  else if c = '\x0d' then ['\\', 'r']
  else if c = '\t' then ['\\', 't']
  else if c.toNat < 32 then uEscape c.toNat
  else if c.toNat < 127 then [c]
  else if c.toNat < 65536 then uEscape c.toNat
  else
    uEscape (55296 + (c.toNat - 65536) / 1024) ++ uEscape (56320 + (c.toNat - 65536) % 1024)

/-- JSON escaping of a character list. -/
def jsonEscapeList : List Char → List Char
  | [] => []
  | c :: rest => jsonEscapeChar c ++ jsonEscapeList rest

/-- Python json.dumps escaping of a string. -/
def jsonEscape (s : String) : String := String.mk (jsonEscapeList s.data)

/-- Python json.dumps rendering of a string-to-string dict without the
enclosing braces: pairs "k": "v" joined by ", " in iteration order, keys
and values JSON-escaped. -/
def dumpsPairs : List (String × String) → String
  | [] => ""
  | [kv] => "\x22" ++ jsonEscape kv.1 ++ "\x22: \x22" ++ jsonEscape kv.2 ++ "\x22"
  | kv :: rest =>
    "\x22" ++ jsonEscape kv.1 ++ "\x22: \x22" ++ jsonEscape kv.2 ++ "\x22" ++ ", " ++ dumpsPairs rest

/-- Python json.dumps of a string-to-string dict. -/
def json_dumps_strmap (tags : List (String × String)) : String :=
  "\x7b" ++ dumpsPairs tags ++ "\x7d"

/-- Characters of tag keys and values on which the to_params tag
serialization is structure-preserving: printable ASCII, excluding the
two characters rewritten by the replace calls (space and ":") and the
two characters json.dumps escapes within that range (double quote and
backslash). -/
def cleanTagChar (c : Char) : Prop :=
  c ≠ ' ' ∧ c ≠ ':' ∧ c ≠ '\x22' ∧ c ≠ '\\' ∧ 32 ≤ c.toNat ∧ c.toNat ≤ 126

instance (c : Char) : Decidable (cleanTagChar c) := by
  unfold cleanTagChar
  infer_instance

/-- Composite m parameter of Query.to_params (int_test.py:233-239):
<aggregator>[:<downsampler>]:<metric> followed, when tags is truthy,
by json.dumps(tags) with all spaces removed and every ":" replaced
by "=". -/
def Query.to_params_m (q : Query) : String :=
  let m0 := q.aggregator
  let m1 := if strTruthy q.downsampler then m0 ++ ":" ++ q.downsampler.getD "" else m0
  let m2 := m1 ++ ":" ++ q.metric
  if q.tags.isEmpty then m2
  else m2 ++ pyreplace (pyreplace (json_dumps_strmap q.tags) ' ' "") ':' "="

/-- Query.to_params (int_test.py:228-240): flat parameter dict with
start, end, msResolution and the composite m token. -/
def Query.to_params (q : Query) : List (String × J) :=
  [("start", J.int q.start), ("end", J.int q.end_),
   ("msResolution", J.str "true"), ("m", J.str q.to_params_m)]

/-- Serialization format the specification describes for the tag map of
the m parameter: bare keys and values in `k=v` pairs joined by "," and
enclosed in braces. Modelled from the spec wording (claim C4) for
comparison against the code's rendering. -/
def specBareTagSerialization (tags : List (String × String)) : String :=
  "\x7b" ++ String.intercalate "," (tags.map fun kv => kv.1 ++ "=" ++ kv.2) ++ "\x7d"

/-- Join strings with "," separators. -/
def joinComma : List String → String
  | [] => ""
  | [s] => s
  | s :: rest => s ++ "," ++ joinComma rest

/-- Tag-map serialization the code actually produces (proved below):
JSON-quoted keys and values in `"k"="v"` pairs joined by "," and
enclosed in braces. -/
def quotedTagSerialization (tags : List (String × String)) : String :=
  "\x7b" ++ joinComma
    (tags.map fun kv => "\x22" ++ kv.1 ++ "\x22=\x22" ++ kv.2 ++ "\x22") ++ "\x7d"

/-- Composition of the two replacements applied by to_params to the
dumped tag map: remove spaces, then rewrite ":" to "=". -/
def pyfix (s : String) : String := pyreplace (pyreplace s ' ' "") ':' "="

/-! Basic lemmas about the JList / JObj iteration helpers. -/

theorem jAll_eq_true (p : J → Bool) : ∀ (es : JList), jAll p es = true ↔ ∀ e ∈ es.toList, p e = true
  | JList.nil => by simp [jAll, JList.toList]
  | JList.cons e rest => by
    have ih := jAll_eq_true p rest
    simp [jAll, JList.toList, ih]

theorem jAny_eq_true (p : J → Bool) : ∀ (es : JList), jAny p es = true ↔ ∃ e ∈ es.toList, p e = true
  | JList.nil => by simp [jAny, JList.toList]
  | JList.cons e rest => by
    have ih := jAny_eq_true p rest
    simp [jAny, JList.toList, ih]

theorem oAll_eq_true (p : String → J → Bool) : ∀ (kvs : JObj), oAll p kvs = true ↔ ∀ kv ∈ kvs.toList, p kv.1 kv.2 = true
  | JObj.nil => by simp [oAll, JObj.toList]
  | JObj.cons k v rest => by
    have ih := oAll_eq_true p rest
    simp [oAll, JObj.toList, ih]

theorem jAll_congr (p q : J → Bool) : ∀ (es : JList), (∀ e ∈ es.toList, p e = q e) → jAll p es = jAll q es
  | JList.nil => fun _ => rfl
  | JList.cons e rest => fun h => by
    have ih := jAll_congr p q rest (fun x hx => h x (by simp [JList.toList, hx]))
    simp only [jAll]
    rw [h e (by simp [JList.toList]), ih]

theorem jAny_congr (p q : J → Bool) : ∀ (es : JList), (∀ e ∈ es.toList, p e = q e) → jAny p es = jAny q es
  | JList.nil => fun _ => rfl
  | JList.cons e rest => fun h => by
    have ih := jAny_congr p q rest (fun x hx => h x (by simp [JList.toList, hx]))
    simp only [jAny]
    rw [h e (by simp [JList.toList]), ih]

theorem oAll_congr (p q : String → J → Bool) : ∀ (kvs : JObj), (∀ kv ∈ kvs.toList, p kv.1 kv.2 = q kv.1 kv.2) → oAll p kvs = oAll q kvs
  | JObj.nil => fun _ => rfl
  | JObj.cons k v rest => fun h => by
    have ih := oAll_congr p q rest (fun x hx => h x (by simp [JObj.toList, hx]))
    simp only [oAll]
    rw [h (k, v) (by simp [JObj.toList]), ih]

theorem szJ_pos (x : J) : 1 ≤ szJ x := by
  cases x <;> simp [szJ]

theorem szJ_lt_of_mem {e : J} : ∀ (es : JList), e ∈ es.toList → szJ e < szL es
  | JList.nil => by simp [JList.toList]
  | JList.cons x rest => by
    intro h
    simp only [JList.toList, List.mem_cons] at h
    rcases h with h | h
    · subst h; simp [szL]; omega
    · have := szJ_lt_of_mem rest h; simp [szL]; omega

theorem szJ_lt_of_mem_obj {kv : String × J} : ∀ (kvs : JObj), kv ∈ kvs.toList → szJ kv.2 < szO kvs
  | JObj.nil => by simp [JObj.toList]
  | JObj.cons k3 v3 rest => by
    intro h
    simp only [JObj.toList, List.mem_cons] at h
    rcases h with h | h
    · rw [h]; simp [szO]; omega
    · have := szJ_lt_of_mem_obj rest h; simp [szO]; omega

theorem szJ_lt_of_lookupJ {k : String} {v : J} : ∀ (kvs : JObj), lookupJ k kvs = some v → szJ v < szO kvs
  | JObj.nil => by simp [lookupJ]
  | JObj.cons k2 w rest => by
    intro h
    simp only [lookupJ] at h
    by_cases hk : k2 = k
    · rw [if_pos hk] at h
      injection h with h
      subst h
      simp [szO]; omega
    · rw [if_neg hk] at h
      have := szJ_lt_of_lookupJ rest h
      simp [szO]; omega

/-! Fuel congruence for verifyF: the result does not depend on the fuel
as long as the fuel is at least szJ of both operands combined; hence
verify_json satisfies exactly the recursion of the source. -/

theorem verifyF_congr : ∀ (n : ℕ) (a b : J) (m₁ m₂ : ℕ),
    szJ a + szJ b ≤ m₁ → m₁ ≤ n → szJ a + szJ b ≤ m₂ →
    verifyF m₁ a b = verifyF m₂ a b := by
  intro n
  induction n with
  | zero =>
    intro a b m₁ m₂ h1 h2 _
    have := szJ_pos a
    omega
  | succ n ih =>
    intro a b m₁ m₂ h1 h2 h3
    have ha := szJ_pos a
    have hb := szJ_pos b
    obtain ⟨k₁, rfl⟩ : ∃ k, m₁ = k + 1 := ⟨m₁ - 1, by omega⟩
    obtain ⟨k₂, rfl⟩ : ∃ k, m₂ = k + 1 := ⟨m₂ - 1, by omega⟩
    cases a with
    | arr es =>
      cases b with
      | arr as =>
        cases as with
        | nil => rfl
        | cons a0 as0 =>
          simp only [verifyF]
          by_cases hlen : jLen es = jLen (JList.cons a0 as0)
          · rw [if_pos hlen, if_pos hlen]
            have hsz : szL es + szL (JList.cons a0 as0) + 2 ≤ k₁ + 1 := by
              simp only [szJ] at h1; omega
            have hsz2 : szL es + szL (JList.cons a0 as0) + 2 ≤ k₂ + 1 := by
              simp only [szJ] at h3; omega
            have inner : ∀ e ∈ es.toList, ∀ x ∈ (JList.cons a0 as0).toList,
                verifyF k₁ e x = verifyF k₂ e x := by
              intro e he x hx
              have h4 := szJ_lt_of_mem es he
              have h5 := szJ_lt_of_mem (JList.cons a0 as0) hx
              exact ih e x k₁ k₂ (by omega) (by omega) (by omega)
            rw [jAll_congr (fun e => jAny (fun x => verifyF k₁ e x) (JList.cons a0 as0))
                  (fun e => jAny (fun x => verifyF k₂ e x) (JList.cons a0 as0)) es
                  (fun e he => jAny_congr (fun x => verifyF k₁ e x)
                    (fun x => verifyF k₂ e x) (JList.cons a0 as0)
                    (fun x hx => inner e he x hx)),
                jAll_congr (fun x => jAny (fun e => verifyF k₁ e x) es)
                  (fun x => jAny (fun e => verifyF k₂ e x) es) (JList.cons a0 as0)
                  (fun x hx => jAny_congr (fun e => verifyF k₁ e x)
                    (fun e => verifyF k₂ e x) es
                    (fun e he => inner e he x hx))]
          · rw [if_neg hlen, if_neg hlen]
      | obj _ => rfl
      | flt _ => rfl
      | int _ => rfl
      | str _ => rfl
    | obj eo =>
      cases b with
      | arr _ => rfl
      | obj ao =>
        simp only [verifyF]
        by_cases hlen : oLen eo = oLen ao
        · rw [if_pos hlen, if_pos hlen]
          have hsz : szO eo + szO ao + 2 ≤ k₁ + 1 := by
            simp only [szJ] at h1; omega
          have hsz2 : szO eo + szO ao + 2 ≤ k₂ + 1 := by
            simp only [szJ] at h3; omega
          have left : ∀ kv ∈ eo.toList,
              (match lookupJ kv.1 ao with
               | some w => verifyF k₁ kv.2 w
               | none => false) =
              (match lookupJ kv.1 ao with
               | some w => verifyF k₂ kv.2 w
               | none => false) := by
            intro kv hkv
            cases hw : lookupJ kv.1 ao with
            | none => rfl
            | some w =>
              have h4 := szJ_lt_of_mem_obj eo hkv
              have h5 := szJ_lt_of_lookupJ ao hw
              exact ih kv.2 w k₁ k₂ (by omega) (by omega) (by omega)
          have right : ∀ kv ∈ ao.toList,
              (match lookupJ kv.1 eo with
               | some w => verifyF k₁ kv.2 w
               | none => false) =
              (match lookupJ kv.1 eo with
               | some w => verifyF k₂ kv.2 w
               | none => false) := by
            intro kv hkv
            cases hw : lookupJ kv.1 eo with
            | none => rfl
            | some w =>
              have h4 := szJ_lt_of_mem_obj ao hkv
              have h5 := szJ_lt_of_lookupJ eo hw
              exact ih kv.2 w k₁ k₂ (by omega) (by omega) (by omega)
          rw [oAll_congr
                (fun k v => match lookupJ k ao with
                  | some w => verifyF k₁ v w
                  | none => false)
                (fun k v => match lookupJ k ao with
                  | some w => verifyF k₂ v w
                  | none => false) eo
                (fun kv hkv => left kv hkv),
              oAll_congr
                (fun k v => match lookupJ k eo with
                  | some w => verifyF k₁ v w
                  | none => false)
                (fun k v => match lookupJ k eo with
                  | some w => verifyF k₂ v w
                  | none => false) ao
                (fun kv hkv => right kv hkv)]
        · rw [if_neg hlen, if_neg hlen]
      | flt _ => rfl
      | int _ => rfl
      | str _ => rfl
    | flt _ => cases b <;> rfl
    | int _ => cases b <;> rfl
    | str _ => cases b <;> rfl

/-- With sufficient fuel, verifyF computes verify_json. -/
theorem verifyF_eq {n : ℕ} {a b : J} (h : szJ a + szJ b ≤ n) :
    verifyF n a b = verify_json a b :=
  verifyF_congr n a b n (szJ a + szJ b) h le_rfl le_rfl

/-! Symmetry of the comparator away from the empty-series
normalization branch. -/

theorem noEmptyDpsL_iff : ∀ (es : JList), noEmptyDpsL es = true ↔ ∀ e ∈ es.toList, noEmptyDps e = true
  | JList.nil => by simp [noEmptyDpsL, JList.toList]
  | JList.cons e rest => by
    have ih := noEmptyDpsL_iff rest
    simp [noEmptyDpsL, JList.toList, ih]

/-- A non-empty expected list never matches an empty actual list when no
subtree is an empty "dps" dict: the normalization escape hatch
(int_test.py:482-497) cannot apply. -/
theorem verifyF_cons_nil (n : ℕ) (e0 : J) (es0 : JList)
    (h : noEmptyDpsL (JList.cons e0 es0) = true) :
    verifyF (n + 1) (J.arr (JList.cons e0 es0)) (J.arr JList.nil) = false := by
  have h0 : noEmptyDps e0 = true :=
    (noEmptyDpsL_iff _).mp h e0 (by simp [JList.toList])
  cases es0 with
  | cons _ _ => cases e0 <;> rfl
  | nil =>
    cases e0 with
    | arr _ => rfl
    | flt _ => rfl
    | int _ => rfl
    | str _ => rfl
    | obj d =>
      have hd : dpsNotEmptyObj d = true := by
        simp only [noEmptyDps, Bool.and_eq_true] at h0
        exact h0.1
      simp only [verifyF]
      cases hw : lookupJ "dps" d with
      | none => rfl
      | some w =>
        cases w with
        | obj l =>
          cases l with
          | nil =>
            exact absurd hd (by simp [dpsNotEmptyObj, hw])
          | cons _ _ _ => rfl
        | arr _ => rfl
        | flt _ => rfl
        | int _ => rfl
        | str _ => rfl

/-- An empty expected list never matches a non-empty actual list
(length mismatch, int_test.py:498-501). -/
theorem verifyF_nil_cons (n : ℕ) (a0 : J) (as0 : JList) :
    verifyF (n + 1) (J.arr JList.nil) (J.arr (JList.cons a0 as0)) = false := by
  simp only [verifyF]
  rw [if_neg]
  simp only [jLen]
  omega

/-- Symmetry of verifyF at every fuel, assuming no subtree of either
operand is a dict binding "dps" to an empty dict. -/
theorem verifyF_symm : ∀ (n : ℕ) (a b : J),
    noEmptyDps a = true → noEmptyDps b = true →
    verifyF n a b = verifyF n b a := by
  intro n
  induction n with
  | zero => intro a b _ _; rfl
  | succ n ih =>
    intro a b hna hnb
    cases a with
    | flt e =>
      cases b with
      | flt a2 =>
        simp only [verifyF]
        rw [decide_eq_decide, abs_sub_comm]
      | arr _ => rfl
      | obj _ => rfl
      | int _ => rfl
      | str _ => rfl
    | int e =>
      cases b with
      | int a2 =>
        simp only [verifyF]
        rw [decide_eq_decide]
        exact eq_comm
      | arr _ => rfl
      | obj _ => rfl
      | flt _ => rfl
      | str _ => rfl
    | str e =>
      cases b with
      | str a2 =>
        simp only [verifyF]
        rw [decide_eq_decide]
        exact eq_comm
      | arr _ => rfl
      | obj _ => rfl
      | flt _ => rfl
      | int _ => rfl
    | obj eo =>
      cases b with
      | obj ao =>
        simp only [verifyF]
        by_cases h : oLen eo = oLen ao
        · rw [if_pos h, if_pos h.symm, Bool.and_comm]
        · rw [if_neg h, if_neg (fun hh => h hh.symm)]
      | arr _ => rfl
      | flt _ => rfl
      | int _ => rfl
      | str _ => rfl
    | arr es =>
      cases b with
      | obj _ => rfl
      | flt _ => rfl
      | int _ => rfl
      | str _ => rfl
      | arr as =>
        have hes : noEmptyDpsL es = true := by
          simpa [noEmptyDps] using hna
        have has : noEmptyDpsL as = true := by
          simpa [noEmptyDps] using hnb
        cases as with
        | nil =>
          cases es with
          | nil => rfl
          | cons e0 es0 =>
            rw [verifyF_cons_nil n e0 es0 hes, verifyF_nil_cons n e0 es0]
        | cons a0 as0 =>
          cases es with
          | nil =>
            rw [verifyF_nil_cons n a0 as0, verifyF_cons_nil n a0 as0 has]
          | cons e0 es0 =>
            have hmes : ∀ e ∈ (JList.cons e0 es0).toList, noEmptyDps e = true :=
              (noEmptyDpsL_iff _).mp hes
            have hmas : ∀ x ∈ (JList.cons a0 as0).toList, noEmptyDps x = true :=
              (noEmptyDpsL_iff _).mp has
            simp only [verifyF]
            by_cases hlen : jLen (JList.cons e0 es0) = jLen (JList.cons a0 as0)
            · rw [if_pos hlen, if_pos hlen.symm]
              have e1 : jAll (fun x => jAny (fun e => verifyF n e x) (JList.cons e0 es0)) (JList.cons a0 as0)
                  = jAll (fun e => jAny (fun a => verifyF n e a) (JList.cons e0 es0)) (JList.cons a0 as0) :=
                jAll_congr _ _ (JList.cons a0 as0) (fun x hx =>
                  jAny_congr _ _ (JList.cons e0 es0) (fun e he =>
                    ih e x (hmes e he) (hmas x hx)))
              have e2 : jAll (fun e => jAny (fun a => verifyF n e a) (JList.cons a0 as0)) (JList.cons e0 es0)
                  = jAll (fun a => jAny (fun e => verifyF n e a) (JList.cons a0 as0)) (JList.cons e0 es0) :=
                jAll_congr _ _ (JList.cons e0 es0) (fun x hx =>
                  jAny_congr _ _ (JList.cons a0 as0) (fun a ha =>
                    ih x a (hmes x hx) (hmas a ha)))
              rw [e2, e1]
              exact Bool.and_comm _ _
            · rw [if_neg hlen, if_neg (fun hh => hlen hh.symm)]

end TickTock

namespace TickTock

/-! Claim theorems for the comparator. -/

theorem jlist_cons_ne_nil (e : J) (rest : JList) : JList.cons e rest ≠ JList.nil :=
  fun h => JList.noConfusion h

/-- Claim C2 (corrected): the comparator is symmetric for all structurally
well-typed response trees in which no subtree is a mapping binding "dps"
to an empty mapping; on such trees verify_json(a, b) = verify_json(b, a).
(The unrestricted claim fails: the empty-series normalization branch is
one-directional, see the counterexample.) -/
theorem verify_json_symm (a b : J) (ha : noEmptyDps a = true) (hb : noEmptyDps b = true) :
    verify_json a b = verify_json b a := by
  unfold verify_json
  rw [Nat.add_comm (szJ b) (szJ a)]
  exact verifyF_symm (szJ a + szJ b) a b ha hb

/-- Witness for C2: concrete symmetric comparison. -/
theorem verify_json_symm_witness :
    verify_json (J.arr (JList.cons (J.obj (JObj.cons "id" (J.int 1) JObj.nil)) JList.nil))
        (J.arr (JList.cons (J.obj (JObj.cons "id" (J.int 2) JObj.nil)) JList.nil)) =
      verify_json (J.arr (JList.cons (J.obj (JObj.cons "id" (J.int 2) JObj.nil)) JList.nil))
        (J.arr (JList.cons (J.obj (JObj.cons "id" (J.int 1) JObj.nil)) JList.nil)) :=
  verify_json_symm _ _ (by decide) (by decide)

/-- Counterexample for C2 as stated: both operands are structurally
well-typed trees, yet swapping them changes the verdict, because the
empty-series normalization (int_test.py:482-497) only inspects the
expected side. -/
theorem verify_json_symm_counterexample :
    verify_json
        (J.arr (JList.cons (J.obj (JObj.cons "dps" (J.obj JObj.nil) JObj.nil)) JList.nil))
        (J.arr JList.nil) = true ∧
    verify_json
        (J.arr JList.nil)
        (J.arr (JList.cons (J.obj (JObj.cons "dps" (J.obj JObj.nil) JObj.nil)) JList.nil)) = false := by
  decide

/-- Claim C5 (confirmed): empty-series normalization at the comparator:
expected [{"metric":"m","tags":{},"dps":{}}] matches actual []; expected
[] matches actual []; expected [{"dps":{"1":2.0}}] does not match
actual []. -/
theorem verify_json_empty_series_normalization :
    verify_json
        (J.arr (JList.ofList [J.obj (JObj.ofList
          [("metric", J.str "m"), ("tags", J.obj JObj.nil), ("dps", J.obj JObj.nil)])]))
        (J.arr JList.nil) = true ∧
    verify_json (J.arr JList.nil) (J.arr JList.nil) = true ∧
    verify_json
        (J.arr (JList.ofList [J.obj (JObj.ofList
          [("dps", J.obj (JObj.ofList [("1", J.flt 2)]))])]))
        (J.arr JList.nil) = false := by
  decide

/-- Claim C6 (confirmed): two floats are judged equivalent exactly when
|expected - actual| ≤ 0.00000000012 (absolute tolerance); in particular
1.0 versus 1.0 + 1e-13 passes and 1.0 versus 1.0 + 1e-3 fails. -/
theorem verify_json_float_tolerance :
    (∀ e a : ℚ, verify_json (J.flt e) (J.flt a) = true ↔ |e - a| ≤ 12 / 100000000000) ∧
    verify_json (J.flt 1) (J.flt (1 + 1 / 10000000000000)) = true ∧
    verify_json (J.flt 1) (J.flt (1 + 1 / 1000)) = false := by
  refine ⟨fun e a => ?_, ?_, ?_⟩
  · have h : verify_json (J.flt e) (J.flt a) = decide (|e - a| ≤ eps) := rfl
    rw [h, decide_eq_true_iff]
    exact Iff.rfl
  · have h : verify_json (J.flt 1) (J.flt (1 + 1 / 10000000000000)) =
        decide (|(1 : ℚ) - (1 + 1 / 10000000000000)| ≤ eps) := rfl
    rw [h, decide_eq_true_iff]
    rw [show (1 : ℚ) - (1 + 1 / 10000000000000) = -(1 / 10000000000000) by ring, abs_neg,
        abs_of_nonneg (by norm_num)]
    norm_num [eps]
  · have h : verify_json (J.flt 1) (J.flt (1 + 1 / 1000)) =
        decide (|(1 : ℚ) - (1 + 1 / 1000)| ≤ eps) := rfl
    rw [h, decide_eq_false_iff_not]
    rw [show (1 : ℚ) - (1 + 1 / 1000) = -(1 / 1000) by ring, abs_neg,
        abs_of_nonneg (by norm_num)]
    norm_num [eps]

/-- Witness for C6: the tolerance test applied at a concrete pair. -/
theorem verify_json_float_tolerance_witness :
    verify_json (J.flt 3) (J.flt 3) = true :=
  (verify_json_float_tolerance.1 3 3).mpr (by norm_num)

/-- Claim C7 (confirmed): non-empty equal-length sibling lists are
compared as unordered multisets: the comparison succeeds exactly when
every expected element matches some actual element and every actual
element is matched by some expected element (expected elements always
stay on the left of the recursive comparison); concretely
[{"id":1},{"id":2}] matches [{"id":2},{"id":1}] but not
[{"id":1},{"id":1}]. -/
theorem verify_json_unordered_multiset :
    (∀ es as : JList, as ≠ JList.nil → jLen es = jLen as →
      (verify_json (J.arr es) (J.arr as) = true ↔
        ((∀ e ∈ es.toList, ∃ a ∈ as.toList, verify_json e a = true) ∧
         (∀ a ∈ as.toList, ∃ e ∈ es.toList, verify_json e a = true)))) ∧
    verify_json
      (J.arr (JList.ofList [J.obj (JObj.ofList [("id", J.int 1)]),
                            J.obj (JObj.ofList [("id", J.int 2)])]))
      (J.arr (JList.ofList [J.obj (JObj.ofList [("id", J.int 2)]),
                            J.obj (JObj.ofList [("id", J.int 1)])])) = true ∧
    verify_json
      (J.arr (JList.ofList [J.obj (JObj.ofList [("id", J.int 1)]),
                            J.obj (JObj.ofList [("id", J.int 2)])]))
      (J.arr (JList.ofList [J.obj (JObj.ofList [("id", J.int 1)]),
                            J.obj (JObj.ofList [("id", J.int 1)])])) = false := by
  refine ⟨fun es as hne hlen => ?_, by decide, by decide⟩
  cases as with
  | nil => exact absurd rfl hne
  | cons a0 as0 =>
    have hb : ∀ e ∈ es.toList, ∀ x ∈ (JList.cons a0 as0).toList,
        verifyF (szL es + szL (JList.cons a0 as0) + 1) e x = verify_json e x := by
      intro e he x hx
      have h4 := szJ_lt_of_mem es he
      have h5 := szJ_lt_of_mem (JList.cons a0 as0) hx
      exact verifyF_eq (by omega)
    have h : verify_json (J.arr es) (J.arr (JList.cons a0 as0)) =
        verifyF (szL es + szL (JList.cons a0 as0) + 1 + 1) (J.arr es) (J.arr (JList.cons a0 as0)) := by
      unfold verify_json
      have hsz : szJ (J.arr es) + szJ (J.arr (JList.cons a0 as0)) =
          szL es + szL (JList.cons a0 as0) + 1 + 1 := by
        simp [szJ]; omega
      rw [hsz]
    rw [h]
    simp only [verifyF]
    rw [if_pos hlen,
        jAll_congr _ (fun e => jAny (fun a => verify_json e a) (JList.cons a0 as0)) es
          (fun e he => jAny_congr _ _ (JList.cons a0 as0) (fun x hx => hb e he x hx)),
        jAll_congr _ (fun x => jAny (fun e => verify_json e x) es) (JList.cons a0 as0)
          (fun x hx => jAny_congr _ _ es (fun e he => hb e he x hx)),
        Bool.and_eq_true, jAll_eq_true, jAll_eq_true]
    simp only [jAny_eq_true]

/-- Witness for C7: the multiset characterization applied at concrete
singleton lists. -/
theorem verify_json_unordered_multiset_witness :
    verify_json (J.arr (JList.cons (J.int 5) JList.nil))
      (J.arr (JList.cons (J.int 5) JList.nil)) = true :=
  (verify_json_unordered_multiset.1 (JList.cons (J.int 5) JList.nil)
    (JList.cons (J.int 5) JList.nil) (jlist_cons_ne_nil _ _) rfl).mpr (by decide)

end TickTock

namespace TickTock

/-! Lemmas about the pseudo-random draw model and the generator. -/

theorem randint_ge (lo hi : ℤ) (n : ℕ) : lo ≤ randint lo hi n := by
  unfold randint
  have h : (0 : ℤ) ≤ ((n % (hi - lo + 1).toNat : ℕ) : ℤ) := Int.natCast_nonneg _
  omega

theorem randint_le (lo hi : ℤ) (n : ℕ) (h : lo ≤ hi) : randint lo hi n ≤ hi := by
  unfold randint
  have h1 : 0 < (hi - lo + 1).toNat := by omega
  have h2 : (n % (hi - lo + 1).toNat) < (hi - lo + 1).toNat := Nat.mod_lt _ h1
  have h3 : ((n % (hi - lo + 1).toNat : ℕ) : ℤ) < ((hi - lo + 1).toNat : ℤ) := by
    exact_mod_cast h2
  have h4 : (((hi - lo + 1).toNat : ℕ) : ℤ) = hi - lo + 1 := Int.toNat_of_nonneg (by omega)
  omega

theorem genMetricsAux_cursor_le (pfx : String) (interval_ms tag_cardinality : ℤ) (g : ℕ → ℕ) :
    ∀ (k m : ℕ) (tstamp : ℤ) (ix : ℕ),
      tstamp ≤ (genMetricsAux pfx interval_ms tag_cardinality g k m tstamp ix).2.1
  | 0, m, tstamp, ix => le_refl _
  | Nat.succ k, m, tstamp, ix => by
    simp only [genMetricsAux]
    have h1 : (0 : ℤ) ≤ randint 0 1000
        (g ((genTagsAux interval_ms tag_cardinality g m 1 ix).2 + 1)) :=
      randint_ge 0 1000 _
    have h2 := genMetricsAux_cursor_le pfx interval_ms tag_cardinality g k (m + 1)
      (tstamp + randint 0 1000 (g ((genTagsAux interval_ms tag_cardinality g m 1 ix).2 + 1)))
      ((genTagsAux interval_ms tag_cardinality g m 1 ix).2 + 2)
    omega

theorem genMetricsAux_ts_bounds (pfx : String) (interval_ms tag_cardinality : ℤ) (g : ℕ → ℕ) :
    ∀ (k m : ℕ) (tstamp : ℤ) (ix : ℕ) (dp : DataPoint),
      dp ∈ (genMetricsAux pfx interval_ms tag_cardinality g k m tstamp ix).1 →
      tstamp ≤ dp.timestamp ∧
      dp.timestamp ≤ (genMetricsAux pfx interval_ms tag_cardinality g k m tstamp ix).2.1
  | 0, m, tstamp, ix => by
    intro dp hdp
    simp [genMetricsAux] at hdp
  | Nat.succ k, m, tstamp, ix => by
    intro dp hdp
    simp only [genMetricsAux, List.mem_cons] at hdp
    simp only [genMetricsAux]
    have h1 : (0 : ℤ) ≤ randint 0 1000
        (g ((genTagsAux interval_ms tag_cardinality g m 1 ix).2 + 1)) :=
      randint_ge 0 1000 _
    have h2 := genMetricsAux_cursor_le pfx interval_ms tag_cardinality g k (m + 1)
      (tstamp + randint 0 1000 (g ((genTagsAux interval_ms tag_cardinality g m 1 ix).2 + 1)))
      ((genTagsAux interval_ms tag_cardinality g m 1 ix).2 + 2)
    rcases hdp with hdp | hdp
    · rw [hdp]
      refine ⟨le_refl _, ?_⟩
      show tstamp ≤ _
      omega
    · have h3 := genMetricsAux_ts_bounds pfx interval_ms tag_cardinality g k (m + 1)
        (tstamp + randint 0 1000 (g ((genTagsAux interval_ms tag_cardinality g m 1 ix).2 + 1)))
        ((genTagsAux interval_ms tag_cardinality g m 1 ix).2 + 2) dp hdp
      omega

theorem genStepsAux_cursor_le (pfx : String) (interval_ms tag_cardinality : ℤ)
    (metric_cardinality : ℕ) (g : ℕ → ℕ) (hint : 1 ≤ interval_ms) :
    ∀ (k : ℕ) (tstamp : ℤ) (ix : ℕ),
      tstamp ≤ (genStepsAux pfx interval_ms tag_cardinality metric_cardinality false g k tstamp ix).2.1
  | 0, tstamp, ix => le_refl _
  | Nat.succ k, tstamp, ix => by
    simp only [genStepsAux, Bool.false_eq_true, if_false]
    have h1 : (1 : ℤ) ≤ randint 1 interval_ms (g ix) := randint_ge 1 interval_ms _
    have h2 := genMetricsAux_cursor_le pfx interval_ms tag_cardinality g metric_cardinality 1
      (tstamp + randint 1 interval_ms (g ix)) (ix + 1)
    have h3 := genStepsAux_cursor_le pfx interval_ms tag_cardinality metric_cardinality g hint k
      (genMetricsAux pfx interval_ms tag_cardinality g metric_cardinality 1
        (tstamp + randint 1 interval_ms (g ix)) (ix + 1)).2.1
      (genMetricsAux pfx interval_ms tag_cardinality g metric_cardinality 1
        (tstamp + randint 1 interval_ms (g ix)) (ix + 1)).2.2
    omega

theorem genStepsAux_ts_bounds (pfx : String) (interval_ms tag_cardinality : ℤ)
    (metric_cardinality : ℕ) (g : ℕ → ℕ) (hint : 1 ≤ interval_ms) :
    ∀ (k : ℕ) (tstamp : ℤ) (ix : ℕ) (dp : DataPoint),
      dp ∈ (genStepsAux pfx interval_ms tag_cardinality metric_cardinality false g k tstamp ix).1 →
      tstamp + 1 ≤ dp.timestamp ∧
      dp.timestamp ≤ (genStepsAux pfx interval_ms tag_cardinality metric_cardinality false g k tstamp ix).2.1
  | 0, tstamp, ix => by
    intro dp hdp
    simp [genStepsAux] at hdp
  | Nat.succ k, tstamp, ix => by
    intro dp hdp
    simp only [genStepsAux, Bool.false_eq_true, if_false, List.mem_append] at hdp
    simp only [genStepsAux, Bool.false_eq_true, if_false]
    have h1 : (1 : ℤ) ≤ randint 1 interval_ms (g ix) := randint_ge 1 interval_ms _
    have h2 := genMetricsAux_cursor_le pfx interval_ms tag_cardinality g metric_cardinality 1
      (tstamp + randint 1 interval_ms (g ix)) (ix + 1)
    have h3 := genStepsAux_cursor_le pfx interval_ms tag_cardinality metric_cardinality g hint k
      (genMetricsAux pfx interval_ms tag_cardinality g metric_cardinality 1
        (tstamp + randint 1 interval_ms (g ix)) (ix + 1)).2.1
      (genMetricsAux pfx interval_ms tag_cardinality g metric_cardinality 1
        (tstamp + randint 1 interval_ms (g ix)) (ix + 1)).2.2
    rcases hdp with hdp | hdp
    · have h4 := genMetricsAux_ts_bounds pfx interval_ms tag_cardinality g metric_cardinality 1
        (tstamp + randint 1 interval_ms (g ix)) (ix + 1) dp hdp
      omega
    · have h5 := genStepsAux_ts_bounds pfx interval_ms tag_cardinality metric_cardinality g hint k
        (genMetricsAux pfx interval_ms tag_cardinality g metric_cardinality 1
          (tstamp + randint 1 interval_ms (g ix)) (ix + 1)).2.1
        (genMetricsAux pfx interval_ms tag_cardinality g metric_cardinality 1
          (tstamp + randint 1 interval_ms (g ix)) (ix + 1)).2.2 dp hdp
      omega

/-- Claim C1 (corrected): for metric_count ≥ 1 and out_of_order = false
(and the implicit randint domain requirement interval_ms ≥ 1), every
generated point's timestamp t satisfies start ≤ t < end, and end is
strictly greater than every timestamp. For out_of_order = true the
claim fails (see the counterexample: the cursor can move below start). -/
theorem DataPoints_bounds (pfx : String) (start interval_ms : ℤ)
    (metric_count metric_cardinality : ℕ) (tag_cardinality : ℤ) (g : ℕ → ℕ)
    (hmc : 1 ≤ metric_count) (hint : 1 ≤ interval_ms) :
    ∀ dp ∈ (DataPoints pfx start interval_ms metric_count metric_cardinality
        tag_cardinality false g).dps,
      start ≤ dp.timestamp ∧
      dp.timestamp < (DataPoints pfx start interval_ms metric_count metric_cardinality
        tag_cardinality false g).end_ := by
  intro dp hdp
  have hne : ¬ metric_count = 0 := by omega
  simp only [DataPoints, if_neg hne] at hdp ⊢
  have h := genStepsAux_ts_bounds pfx interval_ms tag_cardinality metric_cardinality g hint
    metric_count start 0 dp hdp
  omega

/-- Witness for C1: the singleton set generated from the all-zero draw
stream with start 1000 contains the point at timestamp 1001, inside
the [start, end) window. -/
theorem DataPoints_bounds_witness :
    (1000 : ℤ) ≤ (⟨"t_metric_1", 1001, 0, [("tag1", "val1")]⟩ : DataPoint).timestamp ∧
    (⟨"t_metric_1", 1001, 0, [("tag1", "val1")]⟩ : DataPoint).timestamp <
      (DataPoints "t" 1000 5000 1 1 1 false (fun _ => 0)).end_ :=
  DataPoints_bounds "t" 1000 5000 1 1 1 (fun _ => 0) (by decide) (by decide)
    ⟨"t_metric_1", 1001, 0, [("tag1", "val1")]⟩ (by decide)

/-- Counterexample for C1 as stated: with out_of_order = true the first
offset randint(-interval_ms, interval_ms) can be negative, producing a
point whose timestamp -4000 lies below start = 1000 (and at or above
end), so the bounds invariant does not hold for out-of-order sets. -/
theorem DataPoints_bounds_counterexample :
    ¬ (∀ dp ∈ (DataPoints "t" 1000 5000 1 1 1 true (fun _ => 0)).dps,
        (1000 : ℤ) ≤ dp.timestamp ∧
        dp.timestamp < (DataPoints "t" 1000 5000 1 1 1 true (fun _ => 0)).end_) := by
  decide

/-- Claim C3 (corrected): constructing the generator with
metric_count = 0 succeeds and produces a set with no points whose start
is the given start, but whose end is 0 (not start): start = end holds
only when start = 0. -/
theorem DataPoints_zero_metric_count (pfx : String) (start interval_ms : ℤ)
    (metric_cardinality : ℕ) (tag_cardinality : ℤ) (out_of_order : Bool) (g : ℕ → ℕ) :
    (DataPoints pfx start interval_ms 0 metric_cardinality tag_cardinality out_of_order g).dps = [] ∧
    (DataPoints pfx start interval_ms 0 metric_cardinality tag_cardinality out_of_order g).start = start ∧
    (DataPoints pfx start interval_ms 0 metric_cardinality tag_cardinality out_of_order g).end_ = 0 := by
  simp [DataPoints]

/-- Counterexample for C3 as stated: with start = 1000 and
metric_count = 0 the constructed set has start 1000 but end 0, so its
start and end fields differ. -/
theorem DataPoints_zero_metric_count_counterexample :
    (DataPoints "t" 1000 5000 0 2 2 false (fun _ => 0)).dps = [] ∧
    (DataPoints "t" 1000 5000 0 2 2 false (fun _ => 0)).start ≠
      (DataPoints "t" 1000 5000 0 2 2 false (fun _ => 0)).end_ := by
  decide

/-- Claim C8 (confirmed): the generator is deterministic in the
pseudo-random stream: two invocations with identical parameters reading
the same stream from the same position produce identical DataPointSets
(same points, same order, same bounds). -/
theorem DataPoints_deterministic (pfx : String) (start interval_ms : ℤ)
    (metric_count metric_cardinality : ℕ) (tag_cardinality : ℤ) (out_of_order : Bool)
    (g1 g2 : ℕ → ℕ) (h : ∀ n, g1 n = g2 n) :
    DataPoints pfx start interval_ms metric_count metric_cardinality tag_cardinality out_of_order g1 =
    DataPoints pfx start interval_ms metric_count metric_cardinality tag_cardinality out_of_order g2 := by
  have hg : g1 = g2 := funext h
  rw [hg]

/-- Witness for C8: two syntactically different but pointwise equal
streams give the same generated set. -/
theorem DataPoints_deterministic_witness :
    DataPoints "t" 1000 5000 1 1 1 false (fun _ => 0) =
    DataPoints "t" 1000 5000 1 1 1 false (fun n => 0 * n) :=
  DataPoints_deterministic "t" 1000 5000 1 1 1 false (fun _ => 0) (fun n => 0 * n)
    (fun n => by simp)

theorem update_values_aux_forall (g : ℕ → ℕ) :
    ∀ (l : List DataPoint) (ix : ℕ),
      List.Forall₂ (fun dp dp2 =>
        dp2.metric = dp.metric ∧ dp2.timestamp = dp.timestamp ∧ dp2.tags = dp.tags ∧
        ∃ d : ℤ, 1 ≤ d ∧ d ≤ 10 ∧ dp2.value = dp.value + (d : ℚ))
        l (update_values_aux g l ix).1
  | [], ix => by simp [update_values_aux]
  | dp :: rest, ix => by
    simp only [update_values_aux]
    refine List.Forall₂.cons ⟨rfl, rfl, rfl, randint 1 10 (g ix), ?_, ?_, rfl⟩
      (update_values_aux_forall g rest (ix + 1))
    · exact randint_ge 1 10 (g ix)
    · exact randint_le 1 10 (g ix) (by norm_num)

/-- Claim C10 (confirmed): update_values changes only the value field of
each point, increasing it by an integer drawn from [1, 10]; the number
and order of points, each point's metric, timestamp and tags, and the
set's start and end bounds are unchanged. -/
theorem update_values_frame (s : DataPointSet) (g : ℕ → ℕ) (ix : ℕ) :
    (s.update_values g ix).1.start = s.start ∧
    (s.update_values g ix).1.end_ = s.end_ ∧
    (s.update_values g ix).1.dps.length = s.dps.length ∧
    List.Forall₂ (fun dp dp2 =>
      dp2.metric = dp.metric ∧ dp2.timestamp = dp.timestamp ∧ dp2.tags = dp.tags ∧
      ∃ d : ℤ, 1 ≤ d ∧ d ≤ 10 ∧ dp2.value = dp.value + (d : ℚ))
      s.dps (s.update_values g ix).1.dps := by
  have hf := update_values_aux_forall g s.dps ix
  refine ⟨rfl, rfl, ?_, hf⟩
  exact hf.length_eq.symm

end TickTock

namespace TickTock

/-! Query rendering claims. -/

theorem lookupKV_append (k : String) : ∀ (l1 l2 : List (String × J)),
    lookupKV k (l1 ++ l2) = (match lookupKV k l1 with
      | some v => some v
      | none => lookupKV k l2)
  | [], l2 => rfl
  | kv :: rest, l2 => by
    simp only [List.cons_append, lookupKV]
    by_cases h : kv.1 = k
    · rw [if_pos h, if_pos h]
    · rw [if_neg h, if_neg h]
      exact lookupKV_append k rest l2

theorem Query.init_aggregator_ne_empty (metric : String) (start : ℤ) (endOpt : Option ℤ)
    (tags : List (String × String)) (agg : Option String) (ds : Option String)
    (ro : Option (List (String × J))) (now : ℤ) :
    (Query.init metric start endOpt tags agg ds ro now).aggregator ≠ "" := by
  cases agg with
  | none => simp [Query.init]
  | some s =>
    by_cases h : s = ""
    · simp [Query.init, h]
    · simp [Query.init, h]

/-- Looking up "aggregator" in the rendered query spec: present with the
normalized aggregator exactly when it differs from "raw". -/
theorem qspec_lookup_aggregator (q : Query) (hne : q.aggregator ≠ "") :
    lookupKV "aggregator" q.qspec =
      if q.aggregator = "raw" then none else some (J.str q.aggregator) := by
  unfold Query.qspec
  by_cases hraw : q.aggregator = "raw" <;>
  by_cases ht : q.tags.isEmpty <;>
  by_cases hd : strTruthy q.downsampler <;>
  rcases q.rate_options with _ | ro
  all_goals try simp [lookupKV, lookupKV_append, hraw, ht, hd, hne]
  all_goals by_cases hr : ro.isEmpty <;> simp [lookupKV, lookupKV_append, hraw, ht, hd, hne, hr]

/-- Claim C9 (confirmed): Query.to_json omits the "aggregator" key from
the query spec exactly when the (normalized) aggregator is "raw"; for
every other value, including the default "none" substituted by the
constructor, the key is present with that value. -/
theorem to_json_aggregator (metric : String) (start : ℤ) (endOpt : Option ℤ)
    (tags : List (String × String)) (agg : Option String) (ds : Option String)
    (ro : Option (List (String × J))) (now : ℤ) :
    lookupKV "aggregator" ((Query.init metric start endOpt tags (some "raw") ds ro now).qspec) = none ∧
    ((Query.init metric start endOpt tags agg ds ro now).aggregator ≠ "raw" →
      lookupKV "aggregator" ((Query.init metric start endOpt tags agg ds ro now).qspec) =
        some (J.str ((Query.init metric start endOpt tags agg ds ro now).aggregator))) ∧
    (Query.init metric start endOpt tags none ds ro now).aggregator = "none" := by
  refine ⟨?_, ?_, rfl⟩
  · rw [qspec_lookup_aggregator _ (Query.init_aggregator_ne_empty metric start endOpt tags
      (some "raw") ds ro now)]
    simp [Query.init]
  · intro hne2
    rw [qspec_lookup_aggregator _ (Query.init_aggregator_ne_empty metric start endOpt tags
      agg ds ro now)]
    rw [if_neg hne2]

/-- Witness for C9: a concrete non-raw aggregator is rendered into the
query spec. -/
theorem to_json_aggregator_witness :
    lookupKV "aggregator" ((Query.init "m" 1 (some 2) [] (some "sum") none none 0).qspec) =
      some (J.str "sum") :=
  (to_json_aggregator "m" 1 (some 2) [] (some "sum") none none 0).2.1 (by decide)

end TickTock

namespace TickTock

/-! Character-replacement lemmas for the to_params tag serialization. -/

theorem replaceCharList_append (c : Char) (r : List Char) :
    ∀ (l1 l2 : List Char),
      replaceCharList c r (l1 ++ l2) = replaceCharList c r l1 ++ replaceCharList c r l2
  | [], l2 => rfl
  | ch :: rest, l2 => by
    simp only [List.cons_append, replaceCharList, List.append_eq]
    by_cases h : ch = c
    · rw [if_pos h, if_pos h, replaceCharList_append c r rest l2, List.append_assoc]
    · rw [if_neg h, if_neg h, replaceCharList_append c r rest l2]
      rfl

theorem replaceCharList_of_not_mem (c : Char) (r : List Char) :
    ∀ (l : List Char), c ∉ l → replaceCharList c r l = l
  | [] => fun _ => rfl
  | ch :: rest => fun h => by
    simp only [List.mem_cons, not_or] at h
    simp only [replaceCharList]
    rw [if_neg (fun hh => h.1 hh.symm), replaceCharList_of_not_mem c r rest h.2]

theorem pyreplace_append (s t : String) (c : Char) (r : String) :
    pyreplace (s ++ t) c r = pyreplace s c r ++ pyreplace t c r := by
  unfold pyreplace
  have h : (s ++ t).data = s.data ++ t.data := rfl
  rw [h, replaceCharList_append]
  rfl

theorem pyreplace_of_not_mem (s : String) (c : Char) (r : String) (h : c ∉ s.data) :
    pyreplace s c r = s := by
  unfold pyreplace
  rw [replaceCharList_of_not_mem c r.data s.data h]

theorem pyfix_append (s t : String) : pyfix (s ++ t) = pyfix s ++ pyfix t := by
  unfold pyfix
  rw [pyreplace_append, pyreplace_append]

theorem pyfix_clean (s : String) (h1 : ' ' ∉ s.data) (h2 : ':' ∉ s.data) : pyfix s = s := by
  unfold pyfix
  rw [pyreplace_of_not_mem s ' ' "" h1, pyreplace_of_not_mem s ':' "=" h2]

/-- On clean characters the json.dumps escaping is the identity. -/
theorem jsonEscapeChar_plain (c : Char) (h : cleanTagChar c) : jsonEscapeChar c = [c] := by
  obtain ⟨-, -, h1, h2, h3, h4⟩ := h
  unfold jsonEscapeChar
  rw [if_neg h1, if_neg h2,
      if_neg (fun hc => absurd (hc ▸ h3) (by decide)),
      if_neg (fun hc => absurd (hc ▸ h3) (by decide)),
      if_neg (fun hc => absurd (hc ▸ h3) (by decide)),
      if_neg (fun hc => absurd (hc ▸ h3) (by decide)),
      if_neg (fun hc => absurd (hc ▸ h3) (by decide)),
      if_neg (by omega), if_pos (by omega)]

theorem jsonEscapeList_plain : ∀ (l : List Char), (∀ c ∈ l, cleanTagChar c) → jsonEscapeList l = l
  | [] => fun _ => rfl
  | c :: rest => fun h => by
    simp only [jsonEscapeList]
    rw [jsonEscapeChar_plain c (h c (by simp)),
        jsonEscapeList_plain rest (fun x hx => h x (by simp [hx]))]
    rfl

theorem jsonEscape_plain (s : String) (h : ∀ c ∈ s.data, cleanTagChar c) : jsonEscape s = s := by
  unfold jsonEscape
  rw [jsonEscapeList_plain s.data h]

/-- The dumped tag pairs of a clean tag map, after space removal and ":"
rewriting, are the quoted pairs joined by bare commas. -/
theorem dumps_replace : ∀ (tags : List (String × String)),
    (∀ kv ∈ tags, (∀ c ∈ kv.1.data, cleanTagChar c) ∧ (∀ c ∈ kv.2.data, cleanTagChar c)) →
    pyfix (dumpsPairs tags) =
      joinComma (tags.map fun kv => "\x22" ++ kv.1 ++ "\x22=\x22" ++ kv.2 ++ "\x22")
  | [] => fun _ => rfl
  | [kv] => fun h => by
    have hkv := h kv (by simp)
    have hk1 : ' ' ∉ kv.1.data := fun hm => (hkv.1 ' ' hm).1 rfl
    have hk2 : ':' ∉ kv.1.data := fun hm => (hkv.1 ':' hm).2.1 rfl
    have hv1 : ' ' ∉ kv.2.data := fun hm => (hkv.2 ' ' hm).1 rfl
    have hv2 : ':' ∉ kv.2.data := fun hm => (hkv.2 ':' hm).2.1 rfl
    simp only [dumpsPairs, List.map_cons, List.map_nil, joinComma, pyfix_append]
    rw [jsonEscape_plain kv.1 hkv.1, jsonEscape_plain kv.2 hkv.2,
        pyfix_clean kv.1 hk1 hk2, pyfix_clean kv.2 hv1 hv2,
        show pyfix "\x22" = "\x22" from rfl,
        show pyfix "\x22: \x22" = "\x22=\x22" from rfl]
  | kv :: kv2 :: rest => fun h => by
    have hkv := h kv (by simp)
    have hk1 : ' ' ∉ kv.1.data := fun hm => (hkv.1 ' ' hm).1 rfl
    have hk2 : ':' ∉ kv.1.data := fun hm => (hkv.1 ':' hm).2.1 rfl
    have hv1 : ' ' ∉ kv.2.data := fun hm => (hkv.2 ' ' hm).1 rfl
    have hv2 : ':' ∉ kv.2.data := fun hm => (hkv.2 ':' hm).2.1 rfl
    have htail := dumps_replace (kv2 :: rest) (fun x hx => h x (by simp [hx]))
    simp only [dumpsPairs, List.map_cons, joinComma, pyfix_append] at htail ⊢
    rw [jsonEscape_plain kv.1 hkv.1, jsonEscape_plain kv.2 hkv.2,
        pyfix_clean kv.1 hk1 hk2, pyfix_clean kv.2 hv1 hv2,
        show pyfix "\x22" = "\x22" from rfl,
        show pyfix "\x22: \x22" = "\x22=\x22" from rfl,
        show pyfix ", " = "," from rfl, htail]

/-- Claim C4 (corrected): for a Query with non-empty tags whose keys and
values consist of printable ASCII characters other than space, ":",
double quote and backslash (so the two replace calls and json.dumps
escaping cannot rewrite them), the m parameter of to_params is the
composite token <agg>[:<downsampler>]:<metric> followed by the tag map
rendered as brace-enclosed, comma-separated "k"="v" pairs — keys and
values keep the double quotes produced by json.dumps (they are not
bare), and ":" is rewritten to "=". -/
theorem to_params_m_rendering (q : Query) (ht : ¬ q.tags.isEmpty = true)
    (hclean : ∀ kv ∈ q.tags,
      (∀ c ∈ kv.1.data, cleanTagChar c) ∧ (∀ c ∈ kv.2.data, cleanTagChar c)) :
    lookupKV "m" q.to_params = some (J.str
      ((if strTruthy q.downsampler then q.aggregator ++ ":" ++ q.downsampler.getD ""
        else q.aggregator) ++ ":" ++ q.metric ++ quotedTagSerialization q.tags)) := by
  have hm : lookupKV "m" q.to_params = some (J.str q.to_params_m) := by
    simp [Query.to_params, lookupKV]
  rw [hm]
  unfold Query.to_params_m
  rw [if_neg ht]
  unfold json_dumps_strmap quotedTagSerialization
  rw [show pyreplace (pyreplace ("\x7b" ++ dumpsPairs q.tags ++ "\x7d") ' ' "") ':' "=" =
        pyfix ("\x7b" ++ dumpsPairs q.tags ++ "\x7d") from rfl,
      pyfix_append, pyfix_append, dumps_replace q.tags hclean,
      show pyfix "\x7b" = "\x7b" from rfl,
      show pyfix "\x7d" = "\x7d" from rfl]

/-- Witness for C4: the rendering theorem applied at a concrete query
with two tags. -/
theorem to_params_m_rendering_witness :
    lookupKV "m"
        ((Query.init "m" 1 (some 2) [("tag1", "val1"), ("tag2", "val2")]
          none none none 0).to_params) =
      some (J.str "none:m\x7b\x22tag1\x22=\x22val1\x22,\x22tag2\x22=\x22val2\x22\x7d") := by
  have h := to_params_m_rendering
    (Query.init "m" 1 (some 2) [("tag1", "val1"), ("tag2", "val2")] none none none 0)
    (by decide) (by decide)
  rw [h]
  rfl

/-- Counterexample for C4 as stated: the claim says tag keys and values
appear bare (unquoted), but json.dumps quotes them: the concrete query
with tags {"tag1": "val1"} renders m as none:m{"tag1"="val1"} (with
quotes), not none:m{tag1=val1}. -/
theorem to_params_m_counterexample :
    (Query.init "m" 1 (some 2) [("tag1", "val1")] none none none 0).to_params_m =
      "none:m\x7b\x22tag1\x22=\x22val1\x22\x7d" ∧
    (Query.init "m" 1 (some 2) [("tag1", "val1")] none none none 0).to_params_m ≠
      "none:m\x7btag1=val1\x7d" := by
  decide

end TickTock
